import Mathlib

/-!
Verification development for the Stochastic-Substrate-Model repository's two
tooling scripts:

* `scripts/generate_vscode_debug_launches.py` (the LaunchConfigSynchronizer):
  reads `.vscode/launch.json` (or starts a fresh structure), removes
  configurations whose `program` references `build/AthenaTests`, appends a
  freshly generated configuration per `.exe` file found in that directory,
  and writes the file back.
* `scripts/generate_structure_doc.py` (the StructureDocGenerator): recursively
  lists target subdirectories in sorted order and writes a Markdown tree.

The scripts are embedded shallowly: JSON values become an inductive `JValue`
(Python dicts are ordered association lists, matching insertion-order
semantics), the filesystem inputs become explicit data (`SyncInput`,
`FsTree`), and the run of each script becomes a pure function.  A run that
aborts before the final write (an uncaught Python exception or `exit(1)`)
is modelled as `Except.error`; `Except.ok` carries exactly the JSON value
that is serialised to disk.
-/

namespace LaunchSync

/-- JSON-like values, as produced by Python's `json.load`.  Objects keep the
key order of the file (Python dicts preserve insertion order). -/
inductive JValue where
  | null
  | bool (b : Bool)
  | num (n : Int)
  | str (s : String)
  | arr (elems : List JValue)
  | obj (fields : List (String × JValue))

/-- First-match lookup of a key in an object's field list, i.e. Python
`d[k]` / `d.get(k)` membership on a dict rendered as an ordered list. -/
def lookupField : List (String × JValue) → String → Option JValue
  | [], _ => none
  | (k, v) :: fs, key => if k = key then some v else lookupField fs key

/-- `d[k] = v` on a Python dict: an existing key keeps its position and gets
the new value; a missing key is appended at the end. -/
def setField : List (String × JValue) → String → JValue → List (String × JValue)
  | [], key, v => [(key, v)]
  | (k, w) :: fs, key, v =>
    if k = key then (key, v) :: fs else (k, w) :: setField fs key v

/-- Python's `str.replace("\\", "/")` acts character-wise here. -/
def sepNorm (c : Char) : Char := if c = '\\' then '/' else c

/-- The normalisation used by `is_test_program`: replace backslashes with
forward slashes, then lower-case (character-wise, which agrees with Python
`str.lower` on the ASCII paths involved). -/
def normChars (l : List Char) : List Char := l.map (fun c => (sepNorm c).toLower)

/-- Boolean list-prefix test (needle against haystack). -/
def isPrefixB : List Char → List Char → Bool
  | [], _ => true
  | _ :: _, [] => false
  | a :: as, b :: bs => a == b && isPrefixB as bs

/-- Python's substring operator `needle in hay`. -/
def substrB (needle : List Char) : List Char → Bool
  | [] => isPrefixB needle []
  | c :: rest => isPrefixB needle (c :: rest) || substrB needle rest

/-- Boolean list-suffix test (needle against haystack). -/
def isSuffixB (needle hay : List Char) : Bool := isPrefixB needle.reverse hay.reverse

/-- Python's `s.endswith(suffix)`. -/
def endsWithB (s suffix : String) : Bool := isSuffixB suffix.data s.data

/-- Python's `s.startswith(pre)`. -/
def startsWithB (s pre : String) : Bool := isPrefixB pre.data s.data

/-- `build_dir = "build/AthenaTests"` from the script. -/
def build_dir : String := "build/AthenaTests"

/-- `is_test_program(program)` from the script: non-strings are never test
programs; strings are classified by a case-insensitive, separator-normalised
substring test against `build_dir`. -/
def is_test_program (program : JValue) : Bool :=
  match program with
  | .str s => substrB (normChars build_dir.data) (normChars s.data)
  | _ => false

/-- Distinguishes the ways the script can abort before writing: a Python
`TypeError` (`data` or `data["configurations"]` of the wrong shape), a
`KeyError` (`data["configurations"]` missing), an `AttributeError`
(`cfg.get` on a non-dict entry), or the explicit `exit(1)` taken when the
build directory is missing.  Every constructor corresponds to a process
that terminates with a non-zero exit status without touching the file. -/
inductive RunError where
  | typeError
  | keyError
  | attrError
  | exitOne
deriving DecidableEq

/-- `cfg.get("program", "")`: only dict entries support `.get`; a missing
key yields the empty string. -/
def cfgProgram : JValue → Except RunError JValue
  | .obj fields => .ok ((lookupField fields "program").getD (.str ""))
  | _ => .error .attrError

/-- The list comprehension building `preserved_configs`: keep, in order, the
configurations whose `program` is not a test program; the first entry that
is not a dict aborts the comprehension. -/
def preservedFilter : List JValue → Except RunError (List JValue)
  | [] => .ok []
  | cfg :: rest =>
    match cfgProgram cfg with
    | .error e => .error e
    | .ok p =>
      match preservedFilter rest with
      | .error e => .error e
      | .ok tail => if is_test_program p then .ok tail else .ok (cfg :: tail)

/-- The filesystem facts the script's run depends on: the parsed content of
`launch.json` if the file exists, whether `build/AthenaTests` exists, the
names `os.listdir` returns for it (in listing order), and which of those
names are regular files. -/
structure SyncInput where
  launchData : Option JValue
  buildDirExists : Bool
  listing : List String
  isFile : String → Bool

/-- The fresh structure created when `launch.json` is absent. -/
def freshData : JValue :=
  .obj [("version", .str "0.2.0"), ("configurations", .arr [])]

/-- The `data` variable after the load-or-create step. -/
def dataOf (inp : SyncInput) : JValue := inp.launchData.getD freshData

/-- `data["configurations"]`, with the Python failure modes: `KeyError` when
the key is absent, `TypeError` when `data` is not a dict or the value is not
a list. -/
def getConfigurations : JValue → Except RunError (List JValue)
  | .obj fields =>
    match lookupField fields "configurations" with
    | some (.arr cs) => .ok cs
    | some _ => .error .typeError
    | none => .error .keyError
  | _ => .error .typeError

/-- POSIX `os.path.join` for the two-argument case used by the script. -/
def joinPath (a b : String) : String :=
  if startsWithB b "/" then b
  else if a = "" || endsWithB a "/" then a ++ b
  else a ++ "/" ++ b

/-- Python's `str.replace("\\", "/")`. -/
def charReplace (s : String) : String := String.mk (s.data.map sepNorm)

/-- `exe_path = os.path.join(build_dir, exe).replace("\\", "/")`. -/
def exePath (exe : String) : String := charReplace (joinPath build_dir exe)

/-- The literal configuration dict synthesised for one executable. -/
def mkConfig (exe : String) : JValue :=
  .obj [
    ("name", .str ("Debug " ++ exe)),
    ("type", .str "cppdbg"),
    ("request", .str "launch"),
    ("program", .str ("${workspaceFolder}/" ++ exePath exe)),
    ("args", .arr []),
    ("stopAtEntry", .bool false),
    ("cwd", .str ("${workspaceFolder}/" ++ build_dir)),
    ("environment", .arr []),
    ("externalConsole", .bool true),
    ("MIMode", .str "gdb"),
    ("setupCommands", .arr [
      .obj [("text", .str "-gdb-set new-console on")],
      .obj [("text", .str "-enable-pretty-printing")]]),
    ("preLaunchTask", .str "build")]

/-- `test_executables`: the listing filtered to names ending in `.exe` that
are regular files, in listing order. -/
def testExecutables (inp : SyncInput) : List String :=
  inp.listing.filter (fun f => endsWithB f ".exe" && inp.isFile f)

/-- `data["configurations"] = preserved + new` (only ever applied to a dict
in a successful run). -/
def setConfigurations : JValue → List JValue → JValue
  | .obj fields, cs => .obj (setField fields "configurations" (.arr cs))
  | v, _ => v

/-- The whole run of `generate_vscode_debug_launches.py`, in the script's
statement order: load or create `data`, read `data["configurations"]` and
build `preserved_configs`, then check the build directory (missing →
`exit(1)`), list and filter executables, synthesise the new configurations,
and return the JSON value written to `launch.json`.  `Except.error` means
the process stopped with a non-zero status before the write. -/
def run (inp : SyncInput) : Except RunError JValue :=
  match getConfigurations (dataOf inp) with
  | .error e => .error e
  | .ok configs =>
    match preservedFilter configs with
    | .error e => .error e
    | .ok preserved =>
      if inp.buildDirExists then
        .ok (setConfigurations (dataOf inp)
          (preserved ++ (testExecutables inp).map mkConfig))
      else
        .error .exitOne

/-- `program` of a configuration dict as `is_test_program` receives it;
used only to state theorems about configurations already known to be dicts. -/
def programOf : JValue → JValue
  | .obj fields => (lookupField fields "program").getD (.str "")
  | _ => .str ""

/-- A configuration is kept by the partition exactly when `keepB` holds. -/
def keepB (cfg : JValue) : Bool := !is_test_program (programOf cfg)

/-- Recogniser for object (dict) values. -/
def isObjB : JValue → Bool
  | .obj _ => true
  | _ => false

/-- Recogniser for string values. -/
def isStrB : JValue → Bool
  | .str _ => true
  | _ => false

/-- Field access on an object value (`none` on other values). -/
def jGet : JValue → String → Option JValue
  | .obj fields, k => lookupField fields k
  | _, _ => none

theorem preservedFilter_eq_filter :
    ∀ cs : List JValue, cs.all isObjB = true →
    preservedFilter cs = .ok (cs.filter keepB) := by
  intro cs h
  induction cs with
  | nil => rfl
  | cons c rest ih =>
    rw [List.all_cons, Bool.and_eq_true] at h
    obtain ⟨h1, h2⟩ := h
    match c, h1 with
    | .obj f, _ =>
      rw [preservedFilter, ih h2]
      simp only [cfgProgram, List.filter_cons, keepB, programOf]
      by_cases hb : is_test_program ((lookupField f "program").getD (.str "")) <;>
        simp [hb]

theorem isPrefixB_append (n t : List Char) : isPrefixB n (n ++ t) = true := by
  induction n with
  | nil => rfl
  | cons a as ih => simp [isPrefixB, ih]

theorem substrB_of_isPrefixB (n h : List Char) (hp : isPrefixB n h = true) :
    substrB n h = true := by
  cases h with
  | nil =>
    cases n with
    | nil => rfl
    | cons _a _as => simp [isPrefixB] at hp
  | cons c rest => simp [substrB, hp]

theorem substrB_append_left (n p h : List Char) (hs : substrB n h = true) :
    substrB n (p ++ h) = true := by
  induction p with
  | nil => simpa using hs
  | cons c cs ih => simp [substrB, ih]

theorem normChars_append (a b : List Char) :
    normChars (a ++ b) = normChars a ++ normChars b := List.map_append _ a b

theorem sepNorm_sepNorm (c : Char) : sepNorm (sepNorm c) = sepNorm c := by
  by_cases hc : c = '\\' <;> simp [sepNorm, hc]

theorem normChars_map_sepNorm (l : List Char) :
    normChars (l.map sepNorm) = normChars l := by
  rw [normChars, normChars, List.map_map]
  congr 1
  funext c
  exact congrArg Char.toLower (sepNorm_sepNorm c)

theorem charReplace_data (s : String) :
    (charReplace s).data = s.data.map sepNorm := rfl

theorem programOf_mkConfig (exe : String) :
    programOf (mkConfig exe) = .str ("${workspaceFolder}/" ++ exePath exe) := rfl

theorem joinPath_build_dir (exe : String) (h : startsWithB exe "/" = false) :
    joinPath build_dir exe = build_dir ++ "/" ++ exe := by
  rw [joinPath, h]
  rfl

theorem is_test_mkConfig (exe : String) (h : startsWithB exe "/" = false) :
    is_test_program (.str ("${workspaceFolder}/" ++ exePath exe)) = true := by
  rw [is_test_program]
  rw [exePath, joinPath_build_dir exe h]
  rw [String.data_append, charReplace_data, normChars_append, normChars_map_sepNorm]
  rw [String.data_append, String.data_append, normChars_append, normChars_append,
    List.append_assoc]
  exact substrB_append_left _ _ _ (substrB_of_isPrefixB _ _ (isPrefixB_append _ _))

theorem keepB_mkConfig (exe : String) (h : startsWithB exe "/" = false) :
    keepB (mkConfig exe) = false := by
  rw [keepB, programOf_mkConfig, is_test_mkConfig exe h]
  rfl

theorem isObjB_mkConfig (exe : String) : isObjB (mkConfig exe) = true := rfl

theorem filter_keepB_idem (cs : List JValue) :
    (cs.filter keepB).filter keepB = cs.filter keepB :=
  List.filter_eq_self.mpr (fun _a ha => (List.mem_filter.mp ha).2)

theorem filter_map_mkConfig (exes : List String)
    (h : ∀ e ∈ exes, startsWithB e "/" = false) :
    (exes.map mkConfig).filter keepB = [] :=
  List.filter_eq_nil_iff.mpr (by
    intro _a ha
    obtain ⟨e, he, rfl⟩ := List.mem_map.mp ha
    simp [keepB_mkConfig e (h e he)])

theorem lookupField_setField (fs : List (String × JValue)) (k : String) (v : JValue) :
    lookupField (setField fs k v) k = some v := by
  induction fs with
  | nil => simp [setField, lookupField]
  | cons p rest ih =>
    obtain ⟨k2, w⟩ := p
    by_cases hk : k2 = k
    · simp [setField, hk, lookupField]
    · simp [setField, hk, lookupField, ih]

theorem setField_setField (fs : List (String × JValue)) (k : String) (v w : JValue) :
    setField (setField fs k v) k w = setField fs k w := by
  induction fs with
  | nil => simp [setField]
  | cons p rest ih =>
    obtain ⟨k2, u⟩ := p
    by_cases hk : k2 = k
    · simp [setField, hk]
    · simp [setField, hk, ih]

theorem all_isObjB_result (cs : List JValue) (exes : List String)
    (h3 : cs.all isObjB = true) :
    (cs.filter keepB ++ exes.map mkConfig).all isObjB = true := by
  rw [List.all_eq_true]
  intro x hx
  rcases List.mem_append.mp hx with hx | hx
  · exact List.all_eq_true.mp h3 x (List.mem_of_mem_filter hx)
  · obtain ⟨e, _, rfl⟩ := List.mem_map.mp hx
    exact isObjB_mkConfig e

theorem run_eq (inp : SyncInput) (fields : List (String × JValue))
    (cs : List JValue)
    (h1 : dataOf inp = .obj fields)
    (h2 : lookupField fields "configurations" = some (.arr cs))
    (h3 : cs.all isObjB = true)
    (h4 : inp.buildDirExists = true) :
    run inp = .ok (.obj (setField fields "configurations"
      (.arr (cs.filter keepB ++ (testExecutables inp).map mkConfig)))) := by
  rw [run, h1]
  simp only [getConfigurations, h2, preservedFilter_eq_filter cs h3, h4,
    setConfigurations, if_true]

end LaunchSync

namespace StructureDoc

/-- A filesystem subtree as `generate_structure_doc.py` observes it:
`os.listdir` yields the children's names (in unspecified order, hence a
plain list) and `os.path.isdir` distinguishes the two constructors. -/
inductive FsTree where
  | file (name : String)
  | dir (name : String) (children : List FsTree)

/-- The entry name `os.listdir` reports. -/
def nameOf : FsTree → String
  | .file n => n
  | .dir n _ => n

instance decNameLe : DecidableRel (fun a b : FsTree => nameOf a ≤ nameOf b) :=
  fun a b => inferInstanceAs (Decidable (nameOf a ≤ nameOf b))

instance : IsTotal FsTree (fun a b : FsTree => nameOf a ≤ nameOf b) :=
  ⟨fun _ _ => le_total _ _⟩

instance : IsTrans FsTree (fun a b : FsTree => nameOf a ≤ nameOf b) :=
  ⟨fun _ _ _ h1 h2 => le_trans h1 h2⟩

/-- Python's `sorted(os.listdir(root))`: a stable sort of the entries by
name under lexicographic (code-point) string order. -/
def sortEntries (ts : List FsTree) : List FsTree :=
  List.insertionSort (fun a b => nameOf a ≤ nameOf b) ts

theorem sizeOf_sortEntries (ts : List FsTree) : sizeOf (sortEntries ts) = sizeOf ts :=
  List.Perm.sizeOf_eq_sizeOf (List.perm_insertionSort _ ts)

/-- The `for item in sorted(os.listdir(root))` loop of
`generate_file_structure`, operating on an already sorted entry list:
a file renders as `pre ++ "- " ++ name`, a directory as
`pre ++ "- " ++ name ++ "/"` followed by its recursively rendered children
with the accumulator grown by two spaces. -/
def genEntries : List FsTree → String → List String
  | [], _ => []
  | .file n :: rest, pre => (pre ++ "- " ++ n) :: genEntries rest pre
  | .dir n cs :: rest, pre =>
    (pre ++ "- " ++ n ++ "/") ::
      (genEntries (sortEntries cs) (pre ++ "  ") ++ genEntries rest pre)
termination_by ts _ => sizeOf ts
decreasing_by
  all_goals
    simp only [sizeOf_sortEntries, List.cons.sizeOf_spec, FsTree.dir.sizeOf_spec,
      FsTree.file.sizeOf_spec]
    omega

/-- `generate_file_structure(root, prefix)` from the script. -/
def generate_file_structure (entries : List FsTree) (pre : String) : List String :=
  genEntries (sortEntries entries) pre

/-- Two spaces per nesting depth, as the spec words the indentation. -/
def indentOf (depth : Nat) : String := String.mk (List.replicate (2 * depth) ' ')

/-- Modelled from the spec's wording of the renderer (depth-indexed rather
than accumulator-based): each entry at nesting depth `d` is rendered with
indent `indentOf d`, directories with a trailing slash and their children
at depth `d + 1`, entries visited in sorted order. -/
def specEntries : Nat → List FsTree → List String
  | _, [] => []
  | d, .file n :: rest => (indentOf d ++ "- " ++ n) :: specEntries d rest
  | d, .dir n cs :: rest =>
    (indentOf d ++ "- " ++ n ++ "/") ::
      (specEntries (d + 1) (sortEntries cs) ++ specEntries d rest)
termination_by _ ts => sizeOf ts
decreasing_by
  all_goals
    simp only [sizeOf_sortEntries, List.cons.sizeOf_spec, FsTree.dir.sizeOf_spec,
      FsTree.file.sizeOf_spec]
    omega

/-- The spec-side rendering of a whole directory at depth `d`. -/
def specLines (d : Nat) (entries : List FsTree) : List String :=
  specEntries d (sortEntries entries)

/-- `target_dirs = ["src", "tests"]` from the script. -/
def target_dirs : List String := ["src", "tests"]

/-- The lines `main` contributes for one target folder: heading, tree and a
blank spacer when the folder exists, the absence placeholder otherwise.
`look` models `os.path.exists`/the directory contents under the parent
directory. -/
def sectionFor (look : String → Option (List FsTree)) (folder : String) :
    List String :=
  match look folder with
  | some cs => ("## `" ++ folder ++ "/`") :: (generate_file_structure cs "" ++ [""])
  | none => ["## `" ++ folder ++ "/` not found.\n"]

/-- All of `output_lines` built by `main`. -/
def mainLines (look : String → Option (List FsTree)) : List String :=
  "# Current Code Directory Structure\n" :: (target_dirs.map (sectionFor look)).flatten

/-- The run of `generate_structure_doc.py`: the content written to the
output Markdown file (`"\n".join(output_lines)`).  The model has no failure
path (traversal errors are outside the claims), so the write always
happens; `Option.isSome` states that the run completes and writes. -/
def mainWrite (look : String → Option (List FsTree)) : Option String :=
  some (String.intercalate "\n" (mainLines look))

end StructureDoc

namespace LaunchSync

/-- Claim C1: on every run that writes the output file, the resulting
`configurations` list is exactly the existing configurations whose `program`
is not classified as referencing the build-output directory (kept unmodified
and in their original relative order, via `List.filter keepB`), followed by
the newly synthesized configurations in the order the executables were
discovered (`(testExecutables inp).map mkConfig`); the stale entries are
exactly the ones the filter drops. -/
theorem c1_regenerated_partition (inp : SyncInput)
    (fields : List (String × JValue)) (cs : List JValue)
    (h1 : dataOf inp = .obj fields)
    (h2 : lookupField fields "configurations" = some (.arr cs))
    (h3 : cs.all isObjB = true)
    (h4 : inp.buildDirExists = true) :
    run inp = .ok (.obj (setField fields "configurations"
      (.arr (cs.filter keepB ++ (testExecutables inp).map mkConfig)))) :=
  run_eq inp fields cs h1 h2 h3 h4

/-- Concrete input for the C1 witness: one unrelated configuration, one
stale configuration, and a build directory holding `App.exe` plus a
non-executable file. -/
def inpC1 : SyncInput :=
  { launchData := some (.obj [("version", .str "0.2.0"),
      ("configurations", .arr [
        .obj [("name", .str "Other"), ("program", .str "${workspaceFolder}/main.out")],
        .obj [("name", .str "Stale"),
          ("program", .str "${workspaceFolder}/build/AthenaTests/Old.exe")]])]),
    buildDirExists := true,
    listing := ["App.exe", "notes.txt"],
    isFile := fun _ => true }

theorem c1_regenerated_partition_witness :
    run inpC1 = .ok (.obj (setField
      [("version", JValue.str "0.2.0"),
       ("configurations", JValue.arr [
         .obj [("name", .str "Other"), ("program", .str "${workspaceFolder}/main.out")],
         .obj [("name", .str "Stale"),
           ("program", .str "${workspaceFolder}/build/AthenaTests/Old.exe")]])]
      "configurations"
      (.arr ([.obj [("name", .str "Other"), ("program", .str "${workspaceFolder}/main.out")],
         .obj [("name", .str "Stale"),
           ("program", .str "${workspaceFolder}/build/AthenaTests/Old.exe")]].filter keepB
        ++ (testExecutables inpC1).map mkConfig)))) :=
  c1_regenerated_partition inpC1 _ _ rfl rfl rfl rfl

/-- Claim C2: when the build-output directory exists but yields no
qualifying executable, the output `configurations` list is exactly the
subsequence of the existing configurations whose `program` does not
reference the build-output directory; nothing is added. -/
theorem c2_no_executables_only_preserved (inp : SyncInput)
    (fields : List (String × JValue)) (cs : List JValue)
    (h1 : dataOf inp = .obj fields)
    (h2 : lookupField fields "configurations" = some (.arr cs))
    (h3 : cs.all isObjB = true)
    (h4 : inp.buildDirExists = true)
    (h5 : testExecutables inp = []) :
    run inp = .ok (.obj (setField fields "configurations"
      (.arr (cs.filter keepB)))) := by
  have he := run_eq inp fields cs h1 h2 h3 h4
  rw [h5] at he
  simpa using he

/-- Concrete input for the C2 witness: the build directory exists but holds
no `.exe` file. -/
def inpC2 : SyncInput :=
  { launchData := some (.obj [("version", .str "0.2.0"),
      ("configurations", .arr [
        .obj [("name", .str "Other"), ("program", .str "${workspaceFolder}/main.out")],
        .obj [("name", .str "Stale"),
          ("program", .str "${workspaceFolder}/build/AthenaTests/Old.exe")]])]),
    buildDirExists := true,
    listing := ["README.md"],
    isFile := fun _ => true }

theorem c2_no_executables_only_preserved_witness :
    run inpC2 = .ok (.obj (setField
      [("version", JValue.str "0.2.0"),
       ("configurations", JValue.arr [
         .obj [("name", .str "Other"), ("program", .str "${workspaceFolder}/main.out")],
         .obj [("name", .str "Stale"),
           ("program", .str "${workspaceFolder}/build/AthenaTests/Old.exe")]])]
      "configurations"
      (.arr ([.obj [("name", .str "Other"), ("program", .str "${workspaceFolder}/main.out")],
         .obj [("name", .str "Stale"),
           ("program", .str "${workspaceFolder}/build/AthenaTests/Old.exe")]].filter keepB)))) :=
  c2_no_executables_only_preserved inpC2 _ _ rfl rfl rfl rfl rfl

/-- Claim C3: when the build-output directory does not exist, the run stops
with an error — in the model every `RunError` is a process exit with
non-zero status that happens before the write, so `launch.json` is left
exactly as it was (or stays absent). -/
theorem c3_missing_build_dir_aborts (inp : SyncInput)
    (h : inp.buildDirExists = false) :
    ∃ e : RunError, run inp = .error e := by
  rcases hg : getConfigurations (dataOf inp) with e | configs
  · exact ⟨e, by simp only [run, hg]⟩
  · rcases hp : preservedFilter configs with e | preserved
    · exact ⟨e, by simp only [run, hg, hp]⟩
    · exact ⟨.exitOne, by simp only [run, hg, hp, h, Bool.false_eq_true, if_false]⟩

/-- Concrete input for the C3 witness: a well-formed `launch.json` but no
build directory. -/
def inpC3 : SyncInput :=
  { launchData := some freshData,
    buildDirExists := false,
    listing := [],
    isFile := fun _ => false }

theorem c3_missing_build_dir_aborts_witness :
    inpC3.buildDirExists = false ∧ ∃ e : RunError, run inpC3 = .error e :=
  ⟨rfl, c3_missing_build_dir_aborts inpC3 rfl⟩

/-- Claim C4: a configuration whose `program` field holds the string `s` is
discarded as stale if and only if `s`, after replacing backslashes with
forward slashes and lowercasing (`normChars`), contains the similarly
normalized build-output directory path as a substring; otherwise it is kept
in front of the remaining preserved configurations. -/
theorem c4_stale_iff_substring (cfields : List (String × JValue)) (s : String)
    (rest tail : List JValue)
    (hp : lookupField cfields "program" = some (.str s))
    (ht : preservedFilter rest = .ok tail) :
    preservedFilter (.obj cfields :: rest) =
      .ok (if substrB (normChars build_dir.data) (normChars s.data)
        then tail else .obj cfields :: tail) := by
  rw [preservedFilter]
  simp only [cfgProgram, hp, Option.getD_some, ht, is_test_program]
  by_cases hb : substrB (normChars build_dir.data) (normChars s.data) <;> simp [hb]

theorem c4_stale_iff_substring_witness :
    preservedFilter [.obj [("program", JValue.str "BUILD\\AthenaTests\\x.exe")]] =
      .ok (if substrB (normChars build_dir.data)
          (normChars ("BUILD\\AthenaTests\\x.exe" : String).data)
        then ([] : List JValue)
        else [.obj [("program", JValue.str "BUILD\\AthenaTests\\x.exe")]]) :=
  c4_stale_iff_substring [("program", .str "BUILD\\AthenaTests\\x.exe")]
    "BUILD\\AthenaTests\\x.exe" [] [] rfl rfl

end LaunchSync

namespace LaunchSync

/-- Claim C5: running the synchronizer a second time on its own output —
with the build directory unchanged and the listing returned in the same
order — writes the very same JSON value, so in particular the
`configurations` content of the second run is identical to the first
run's (the entries the second run regenerates equal the ones it removes).
The listing hypothesis `startsWithB f "/" = false` just states that
`os.listdir` returns bare file names, not absolute paths. -/
theorem c5_second_run_writes_same (inp : SyncInput)
    (fields : List (String × JValue)) (cs : List JValue) (out1 : JValue)
    (h1 : dataOf inp = .obj fields)
    (h2 : lookupField fields "configurations" = some (.arr cs))
    (h3 : cs.all isObjB = true)
    (h4 : inp.buildDirExists = true)
    (h5 : ∀ f ∈ inp.listing, startsWithB f "/" = false)
    (hrun : run inp = .ok out1) :
    run { inp with launchData := some out1 } = .ok out1 := by
  have he := run_eq inp fields cs h1 h2 h3 h4
  rw [hrun] at he
  have hout : out1 = .obj (setField fields "configurations"
      (.arr (cs.filter keepB ++ (testExecutables inp).map mkConfig))) :=
    Except.ok.inj he
  subst hout
  have hexe : ∀ e ∈ testExecutables inp, startsWithB e "/" = false := by
    intro e hee
    exact h5 e (List.mem_of_mem_filter hee)
  have he2 := run_eq { inp with launchData := some (.obj (setField fields
      "configurations" (.arr (cs.filter keepB ++ (testExecutables inp).map mkConfig)))) }
    (setField fields "configurations"
      (.arr (cs.filter keepB ++ (testExecutables inp).map mkConfig)))
    (cs.filter keepB ++ (testExecutables inp).map mkConfig)
    rfl
    (lookupField_setField fields "configurations" _)
    (all_isObjB_result cs (testExecutables inp) h3)
    h4
  rw [he2]
  have hfilter : (cs.filter keepB ++ (testExecutables inp).map mkConfig).filter keepB
      = cs.filter keepB := by
    rw [List.filter_append, filter_keepB_idem, filter_map_mkConfig _ hexe,
      List.append_nil]
  have htest : testExecutables { inp with launchData := some (JValue.obj (setField
      fields "configurations"
      (.arr (cs.filter keepB ++ (testExecutables inp).map mkConfig)))) }
      = testExecutables inp := rfl
  rw [htest, hfilter, setField_setField]

/-- Concrete input for the C5 witness: a fresh `launch.json` and one
executable in the build directory. -/
def inpC5 : SyncInput :=
  { launchData := none,
    buildDirExists := true,
    listing := ["App.exe"],
    isFile := fun _ => true }

theorem c5_second_run_writes_same_witness :
    run { inpC5 with launchData := some (.obj [("version", JValue.str "0.2.0"),
        ("configurations", JValue.arr [mkConfig "App.exe"])]) } =
      .ok (.obj [("version", JValue.str "0.2.0"),
        ("configurations", JValue.arr [mkConfig "App.exe"])]) :=
  c5_second_run_writes_same inpC5 [("version", .str "0.2.0"), ("configurations", .arr [])]
    [] (.obj [("version", .str "0.2.0"), ("configurations", .arr [mkConfig "App.exe"])])
    rfl rfl rfl rfl (by decide) rfl

/-- The scenario input of claim C6: `launch.json` absent, build directory
holding exactly the regular files `App.exe` and `Tests.exe`. -/
def inpC6 : SyncInput :=
  { launchData := none,
    buildDirExists := true,
    listing := ["App.exe", "Tests.exe"],
    isFile := fun _ => true }

/-- Claim C6: on the scenario input the written file has version `"0.2.0"`
and exactly two configurations, named `"Debug App.exe"` and
`"Debug Tests.exe"`, each with request `"launch"` and a `program` string
ending in the respective executable file name. -/
theorem c6_fresh_scenario :
    ∃ cfg1 cfg2 p1 p2,
      run inpC6 = .ok (.obj [("version", JValue.str "0.2.0"),
        ("configurations", JValue.arr [cfg1, cfg2])]) ∧
      jGet cfg1 "name" = some (.str "Debug App.exe") ∧
      jGet cfg2 "name" = some (.str "Debug Tests.exe") ∧
      jGet cfg1 "request" = some (.str "launch") ∧
      jGet cfg2 "request" = some (.str "launch") ∧
      jGet cfg1 "program" = some (.str p1) ∧ endsWithB p1 "App.exe" = true ∧
      jGet cfg2 "program" = some (.str p2) ∧ endsWithB p2 "Tests.exe" = true :=
  ⟨mkConfig "App.exe", mkConfig "Tests.exe",
    "${workspaceFolder}/build/AthenaTests/App.exe",
    "${workspaceFolder}/build/AthenaTests/Tests.exe",
    rfl, rfl, rfl, rfl, rfl, rfl, rfl, rfl, rfl⟩

/-- Claim C9: when the existing `launch.json` parses as a JSON object with
no `"configurations"` key, the run raises `KeyError` while building
`preserved_configs` and aborts before the write (the fresh empty
`configurations` list is only ever installed when the file is absent). -/
theorem c9_missing_key_aborts (inp : SyncInput)
    (fields : List (String × JValue))
    (h1 : inp.launchData = some (.obj fields))
    (h2 : lookupField fields "configurations" = none) :
    run inp = .error .keyError := by
  simp only [run, dataOf, h1, Option.getD_some, getConfigurations, h2]

/-- Concrete input for the C9 witness: a `launch.json` holding only a
`version` key. -/
def inpC9 : SyncInput :=
  { launchData := some (.obj [("version", .str "0.2.0")]),
    buildDirExists := true,
    listing := ["App.exe"],
    isFile := fun _ => true }

theorem c9_missing_key_aborts_witness :
    run inpC9 = .error .keyError :=
  c9_missing_key_aborts inpC9 [("version", .str "0.2.0")] rfl rfl

/-- Claim C10: a configuration whose `program` field is missing (the
default `""` applies, which never references the build directory) or is
not a string (`is_test_program` returns `False` for non-strings) is always
classified as preserved and carried through unchanged at the front of the
remaining preserved configurations. -/
theorem c10_nonstring_program_preserved (cfields : List (String × JValue))
    (rest tail : List JValue)
    (hns : (lookupField cfields "program").elim true (fun v => !isStrB v) = true)
    (ht : preservedFilter rest = .ok tail) :
    preservedFilter (.obj cfields :: rest) = .ok (.obj cfields :: tail) := by
  rw [preservedFilter]
  simp only [cfgProgram, ht]
  cases hv : lookupField cfields "program" with
  | none =>
    have : is_test_program (.str "") = false := by decide
    simp [hv, this]
  | some v =>
    rw [hv] at hns
    simp only [Option.elim] at hns
    have : is_test_program v = false := by
      cases v <;> simp_all [isStrB, is_test_program]
    simp [hv, this]

/-- Concrete input for the C10 witness: a configuration whose `program` is
a number, followed by no further configurations. -/
theorem c10_nonstring_program_preserved_witness :
    preservedFilter [.obj [("name", JValue.str "Attach"), ("program", JValue.num 3)]] =
      .ok [.obj [("name", JValue.str "Attach"), ("program", JValue.num 3)]] :=
  c10_nonstring_program_preserved
    [("name", .str "Attach"), ("program", .num 3)] [] [] rfl rfl

end LaunchSync

namespace StructureDoc

theorem indentOf_succ (d : Nat) : indentOf d ++ "  " = indentOf (d + 1) := by
  rw [indentOf, indentOf, Nat.mul_add, Nat.mul_one, List.replicate_add]
  rfl

theorem genEntries_eq_specEntries (n : Nat) :
    ∀ ts : List FsTree, sizeOf ts ≤ n → ∀ d : Nat,
    genEntries ts (indentOf d) = specEntries d ts := by
  induction n with
  | zero =>
    intro ts h d
    cases ts with
    | nil => rw [genEntries, specEntries]
    | cons t rest =>
      exfalso
      simp only [List.cons.sizeOf_spec] at h
      omega
  | succ n ih =>
    intro ts h d
    match ts with
    | [] => rw [genEntries, specEntries]
    | .file nm :: rest =>
      simp only [List.cons.sizeOf_spec, FsTree.file.sizeOf_spec] at h
      rw [genEntries, specEntries]
      rw [ih rest (by omega) d]
    | .dir nm cs :: rest =>
      simp only [List.cons.sizeOf_spec, FsTree.dir.sizeOf_spec] at h
      rw [genEntries, specEntries]
      rw [indentOf_succ,
        ih (sortEntries cs) (by rw [sizeOf_sortEntries]; omega) (d + 1),
        ih rest (by omega) d]

end StructureDoc

namespace StructureDoc

/-- Claim C7: `generate_file_structure` visits the entries of each
directory in lexicographic order of name with no special ordering of
directories versus files (the visit order `sortEntries` is a permutation of
the directory's entries that is sorted purely by name), and the rendering
refines the spec's depth-indexed description: each directory entry becomes
`"<indent>- <name>/"`, each file entry `"<indent>- <name>"`, with indent
two spaces per nesting depth below the target root (`specLines`, the
spec-side definition). -/
theorem c7_sorted_traversal_and_rendering :
    (∀ ts : List FsTree, (sortEntries ts).Perm ts ∧
      (sortEntries ts).Pairwise (fun a b => nameOf a ≤ nameOf b)) ∧
    (∀ (entries : List FsTree) (d : Nat),
      generate_file_structure entries (indentOf d) = specLines d entries) := by
  constructor
  · intro ts
    exact ⟨List.perm_insertionSort _ ts, List.sorted_insertionSort _ ts⟩
  · intro entries d
    rw [generate_file_structure, specLines]
    exact genEntries_eq_specEntries (sizeOf (sortEntries entries))
      (sortEntries entries) le_rfl d

/-- Claim C8: a target subdirectory name that does not exist under the
project root contributes exactly the absence placeholder heading (so it is
not traversed), that placeholder appears in the output lines, and the run
still completes with the output file written (`mainWrite` produces the
content). -/
theorem c8_missing_target_placeholder (look : String → Option (List FsTree))
    (folder : String)
    (h1 : folder ∈ target_dirs)
    (h2 : look folder = none) :
    sectionFor look folder = ["## `" ++ folder ++ "/` not found.\n"] ∧
    ("## `" ++ folder ++ "/` not found.\n") ∈ mainLines look ∧
    (mainWrite look).isSome = true := by
  have hsec : sectionFor look folder = ["## `" ++ folder ++ "/` not found.\n"] := by
    rw [sectionFor, h2]
  refine ⟨hsec, ?_, rfl⟩
  rw [mainLines]
  apply List.mem_cons_of_mem
  exact List.mem_flatten.mpr ⟨sectionFor look folder,
    List.mem_map_of_mem _ h1, by rw [hsec]; exact List.mem_singleton_self _⟩

theorem c8_missing_target_placeholder_witness :
    sectionFor (fun _ => none) "src" = ["## `src/` not found.\n"] ∧
    ("## `src/` not found.\n") ∈ mainLines (fun _ => none) ∧
    (mainWrite (fun _ => none)).isSome = true :=
  c8_missing_target_placeholder (fun _ => none) "src"
    (List.mem_cons_self _ _) rfl

end StructureDoc
